import Mathlib

/-
Verification of the filestate backend and secrets-manager layer of the
Pulumi CLI state-management core: a shallow embedding of
pkg/backend/filestate/backend.go, pkg/cmd/pulumi/crypto.go and the
service secrets-manager package, together with theorems checking the
specification sentences against the embedded code.
-/

set_option autoImplicit false

namespace PulumiState

/-! ## Stack references (backend.go, localBackendReference) -/

/-- The current workspace project held by the backend (workspace.Project);
only its Name field matters for reference stringification. -/
structure Project where
  name : String
deriving DecidableEq

/-- Embeds localBackendReference: a stack name, its owning project
(empty under the legacy layout), and the backref to the backend through
which the current project is consulted (r.b.currentProject, an optional
pointer). -/
structure LocalBackendReference where
  name : String
  project : String
  currentProject : Option Project
deriving DecidableEq

/-- Embeds localBackendReference.String from backend.go lines 117-132:
legacy references render as the bare name; project-scoped references
elide the project segment exactly when the backend holds a current
project of the same name, and otherwise render fully qualified. -/
def refString (r : LocalBackendReference) : String :=
  if r.project = "" then
    r.name
  else if (match r.currentProject with
           | some p => r.project == p.name
           | none => false) then
    r.name
  else
    "organization/" ++ r.project ++ "/" ++ r.name

/-! ## Layout manifest and reference-store selection (backend.go, New) -/

/-- The two reference-store layouts: legacyReferenceStore and
projectReferenceStore. -/
inductive ReferenceStoreKind where
  | legacy
  | projectScoped
deriving DecidableEq

/-- The unsupported-version message built in the default arm of the
switch in New (backend.go lines 241-244). -/
def unsupportedVersionMsg (v : Int) : String :=
  "state store unsupported: Pulumi.yaml version (" ++ toString v ++
    ") is not supported by this version of the Pulumi CLI"

/-- Embeds the switch on pulumiState.Version in New (backend.go lines
234-245): version 0 selects the legacy store, version 1 the
project-scoped store, anything else aborts construction. -/
def selectReferenceStore (v : Int) : Except String ReferenceStoreKind :=
  if v = 0 then .ok .legacy
  else if v = 1 then .ok .projectScoped
  else .error (unsupportedVersionMsg v)

/-- Modelled from the spec: ensurePulumiMeta (not among the provided
sources) reads the layout manifest at the bucket root; per the spec,
version 0 is "also implied by the manifest being entirely absent". -/
def manifestVersion (manifest : Option Int) : Int :=
  manifest.getD 0

/-- Store selection as performed by New: read (or default) the manifest
version, then branch on it. -/
def newBackendStore (manifest : Option Int) : Except String ReferenceStoreKind :=
  selectReferenceStore (manifestVersion manifest)

/-! ## Per-stack configuration and secrets-manager resolution
(crypto.go, getStackSecretsManager) -/

/-- The provider-selection fields of workspace.ProjectStack, the
persisted per-stack configuration descriptor. -/
structure ProjectStack where
  secretsProvider : String
  encryptedKey : String
  encryptionSalt : String
deriving DecidableEq

/-- passphrase.Type, the provider-kind string of the passphrase secrets
package (its definition is not among the provided sources; the value is
fixed by the supported-kinds list in crypto.go). -/
def passphraseType : String := "passphrase"

/-- The three shapes of secrets manager that getStackSecretsManager can
resolve to before caching. -/
inductive SecretsManagerKind where
  | cloud (provider : String)
  | promptingPassphrase
  | defaultManager
deriving DecidableEq

/-- A resolved secrets manager: always the caching decorator
(stack.NewCachingSecretsManager) around one of the three kinds. -/
inductive ResolvedSecretsManager where
  | caching (inner : SecretsManagerKind)
deriving DecidableEq

/-- Embeds the inner closure of getStackSecretsManager (crypto.go lines
59-77): cloud manager when SecretsProvider is neither passphrase.Type,
"default" nor empty; else prompting passphrase manager when
EncryptionSalt is nonempty; else the default manager. -/
def resolveStackSecretsManager (ps : ProjectStack) : SecretsManagerKind :=
  if ps.secretsProvider ≠ passphraseType ∧ ps.secretsProvider ≠ "default" ∧
      ps.secretsProvider ≠ "" then
    .cloud ps.secretsProvider
  else if ps.encryptionSalt ≠ "" then
    .promptingPassphrase
  else
    .defaultManager

/-- Embeds getStackSecretsManager (crypto.go lines 47-82): the resolved
manager is wrapped in the caching decorator before being returned. -/
def getStackSecretsManager (ps : ProjectStack) : ResolvedSecretsManager :=
  .caching (resolveStackSecretsManager ps)

/-- Resolution policy transcribed from the words of spec section 4.5:
(1) if a non-default, non-passphrase provider kind is recorded,
construct the cloud manager; (2) else if an encryption salt is
recorded, construct a prompting passphrase manager; (3) else fall back
to the default manager; always wrapped in a caching decorator. -/
def getStackSecretsManagerSpec (ps : ProjectStack) : ResolvedSecretsManager :=
  .caching (
    if ps.secretsProvider ≠ "" ∧ ps.secretsProvider ≠ "default" ∧
        ps.secretsProvider ≠ passphraseType then
      .cloud ps.secretsProvider
    else if ps.encryptionSalt ≠ "" then
      .promptingPassphrase
    else
      .defaultManager)

/-! ## Service secrets manager construction
(service package, NewServiceSecretsManager and
changeProjectStackSecretDetails) -/

/-- client.StackIdentifier for the remote service. -/
structure StackIdentifier where
  owner : String
  project : String
  stackName : String
deriving DecidableEq

/-- serviceSecretsManagerState, the serializable descriptor of the
remote-service secrets manager. -/
structure ServiceSecretsManagerState where
  url : String
  owner : String
  project : String
  stackName : String
deriving DecidableEq

/-- Embeds changeProjectStackSecretDetails (service package, lines
204-219): any nonempty provider-selection field is cleared, and the
returned flag records whether a save is required. The Go code mutates
the descriptor in place; here the updated descriptor is returned
alongside the flag. -/
def changeProjectStackSecretDetails (info : ProjectStack) : ProjectStack × Bool :=
  let r1 : String × Bool :=
    if info.secretsProvider ≠ "" then ("", true) else (info.secretsProvider, false)
  let r2 : String × Bool :=
    if info.encryptedKey ≠ "" then ("", true) else (info.encryptedKey, false)
  let r3 : String × Bool :=
    if info.encryptionSalt ≠ "" then ("", true) else (info.encryptionSalt, false)
  (⟨r1.1, r2.1, r3.1⟩, r1.2 || r2.2 || r3.2)

/-- The observable outcome of NewServiceSecretsManager: the per-stack
configuration file after the call, whether SaveProjectStack was
invoked at all, and the state of the manager handed back. -/
structure ServiceManagerOutcome where
  persisted : ProjectStack
  wrote : Bool
  state : ServiceSecretsManagerState
deriving DecidableEq

/-- Embeds NewServiceSecretsManager (service package, lines 123-161):
the loaded per-stack configuration has its previous-provider fields
cleared, the file is saved only when changeProjectStackSecretDetails
reports a change, and the manager carries the client URL and stack
identifier. Project detection and the client itself are external; the
loaded descriptor and client URL are parameters. -/
def NewServiceSecretsManager (url : String) (id : StackIdentifier)
    (info : ProjectStack) : ServiceManagerOutcome :=
  let r := changeProjectStackSecretDetails info
  { persisted := if r.2 then r.1 else info
    wrote := r.2
    state := ⟨url, id.owner, id.project, id.stackName⟩ }

/-! ## Checkpoints, snapshots and stack removal (backend.go,
RemoveStack) -/

/-- A resource URN; only the project segment is consulted by the code
under verification (res.URN.Project during Upgrade). -/
structure URN where
  project : String
deriving DecidableEq

/-- A resource in a deployment snapshot. -/
structure Resource where
  urn : URN
deriving DecidableEq

/-- A deployment snapshot: the resource list (deploy.Snapshot.Resources). -/
structure Snapshot where
  resources : List Resource
deriving DecidableEq

/-- The versioned checkpoint document: Latest is nil for a stack that
was created but never deployed. -/
structure CheckpointV3 where
  latest : Option Snapshot
deriving DecidableEq

/-- The bucket objects belonging to one stack that RemoveStack touches:
the current checkpoint object and the backup area. -/
structure StackStore where
  current : Option CheckpointV3
  backups : List CheckpointV3
deriving DecidableEq

/-- Modelled from the spec: removeStack (state.go, not among the
provided sources) backs up the checkpoint object rather than
hard-deleting it. -/
def removeStackFiles (st : StackStore) : StackStore :=
  { current := none, backups := st.backups ++ st.current.toList }

/-- The guard condition of RemoveStack: snapshot != nil and
len(snapshot.Resources) > 0. -/
def snapshotHasResources : Option Snapshot → Bool
  | some s => decide (0 < s.resources.length)
  | none => false

/-- Embeds RemoveStack (backend.go lines 563-586): without force, a
stack whose snapshot still contains resources is refused and nothing
is touched; otherwise removal proceeds via removeStack. The middle
component is the Boolean RemoveStack returns alongside the error. -/
def RemoveStack (force : Bool) (st : StackStore) :
    StackStore × Bool × Option String :=
  let snapshot := st.current.bind (fun c => c.latest)
  if !force && snapshotHasResources snapshot then
    (st, true, some "refusing to remove stack because it still contains resources")
  else
    (removeStackFiles st, false, none)

/-! ## Force-cancel of lock markers (backend.go, CancelCurrentUpdate) -/

/-- One entry returned by listing a bucket prefix. -/
structure BucketEntry where
  key : String
  isDir : Bool
deriving DecidableEq

/-- The result of listBucket over the lock directory: either the
gcerrors.NotFound case or a listing. -/
inductive ListResult where
  | notFound
  | ok (entries : List BucketEntry)
deriving DecidableEq

/-- The delete loop of CancelCurrentUpdate (backend.go lines
1107-1120), run against the set of keys actually present in the bucket
(which may have drifted from the listing): directories are skipped, a
present key is deleted, and a Delete that comes back NotFound makes
the whole call return nil. In this bucket model Delete fails only with
NotFound, on an absent key. -/
def cancelLoop (present : List String) :
    List BucketEntry → List String × Option String
  | [] => (present, none)
  | e :: rest =>
    if e.isDir then
      cancelLoop present rest
    else if e.key ∈ present then
      cancelLoop (present.erase e.key) rest
    else
      (present, none)

/-- Embeds CancelCurrentUpdate (backend.go lines 1096-1123): a
NotFound from listing the lock directory is benign; otherwise every
listed marker is deleted. Returns the surviving keys and the error. -/
def CancelCurrentUpdate (listing : ListResult) (present : List String) :
    List String × Option String :=
  match listing with
  | .notFound => (present, none)
  | .ok entries => cancelLoop present entries

/-! ## The tail of apply: history, backup and error precedence
(backend.go, apply, lines 866-885) -/

/-- The errors apply can return from its save phase, tagged by source:
the update error itself, the wrapped history-append error ("saving
update info"), or the wrapped backup error ("saving backup"). -/
inductive ApplyError where
  | updateError (e : String)
  | savingUpdateInfo (e : String)
  | savingBackup (e : String)
deriving DecidableEq

/-- What the tail of apply did: whether addToHistory and backupStack
were invoked, and which error the call returned. -/
structure ApplyOutcome where
  historyAttempted : Bool
  backupAttempted : Bool
  returnedError : Option ApplyError
deriving DecidableEq

/-- Embeds apply after the engine operation completes (backend.go lines
866-885). updateRes is the result of the mutating operation (some e on
failure); historyResult and backupResult are what addToHistory and
backupStack report when invoked. Both are invoked exactly when the
operation is not a dry-run; the update error outranks the history
error, which outranks the backup error. -/
def applyFinish (dryRun : Bool) (updateRes : Option String)
    (historyResult backupResult : Option String) : ApplyOutcome :=
  let saveErr := if dryRun then none else historyResult
  let backupErr := if dryRun then none else backupResult
  let attempted := !dryRun
  match updateRes with
  | some e => ⟨attempted, attempted, some (.updateError e)⟩
  | none =>
    match saveErr with
    | some e => ⟨attempted, attempted, some (.savingUpdateInfo e)⟩
    | none =>
      match backupErr with
      | some e => ⟨attempted, attempted, some (.savingBackup e)⟩
      | none => ⟨attempted, attempted, none⟩

/-! ## Legacy-to-project layout migration (backend.go, Upgrade) -/

/-- A stack as enumerated by the legacy reference store: its name and
its checkpoint document. -/
structure LegacyStack where
  name : String
  checkpoint : CheckpointV3
deriving DecidableEq

/-- A stack stored under the project-scoped layout. -/
structure ProjStack where
  project : String
  name : String
  checkpoint : CheckpointV3
deriving DecidableEq

/-- The project-inference step of Upgrade (backend.go lines 283-289):
the project of the URN of the first resource of the snapshot, or empty
when the checkpoint has no snapshot or no resources. -/
def inferProject (chk : CheckpointV3) : String :=
  match chk.latest with
  | none => ""
  | some snap =>
    match snap.resources with
    | [] => ""
    | r :: _ => r.urn.project

/-- The resources listed by a checkpoint (empty when never deployed). -/
def checkpointResources (chk : CheckpointV3) : List Resource :=
  match chk.latest with
  | none => []
  | some snap => snap.resources

/-- The project-scoped stack a legacy stack migrates to. -/
def migratedStack (s : LegacyStack) : ProjStack :=
  ⟨inferProject s.checkpoint, s.name, s.checkpoint⟩

/-- The destination-exists check renameStack performs (backend.go lines
626-632) against the project-scoped area. -/
def stackPathTaken (proj : List ProjStack) (p n : String) : Bool :=
  proj.any (fun q => q.project == p && q.name == n)

/-- The per-stack loop of Upgrade (backend.go lines 277-298): each
legacy stack in turn has its project inferred (error if none) and is
renamed into the project-scoped area (renameStack, which fails if the
destination already exists; its lock handling and URN rewriting are
external). On error the loop stops, returning the legacy stacks not
yet moved (the failing one first), the project-scoped area so far, and
the error. -/
def upgradeLoop (proj : List ProjStack) :
    List LegacyStack → List LegacyStack × List ProjStack × Option String
  | [] => ([], proj, none)
  | s :: rest =>
    let p := inferProject s.checkpoint
    if p = "" then
      (s :: rest, proj, some ("no project found for stack " ++ s.name))
    else if stackPathTaken proj p s.name then
      (s :: rest, proj,
        some ("upgrade stack " ++ s.name ++ ": a stack named " ++ s.name ++
          " already exists"))
    else
      upgradeLoop (proj ++ [⟨p, s.name, s.checkpoint⟩]) rest

/-- The backend state Upgrade works on: the stacks visible under the
legacy listing, the project-scoped area, the manifest version, and the
active reference store. -/
structure MigrationState where
  legacy : List LegacyStack
  projectStacks : List ProjStack
  version : Int
  storeKind : ReferenceStoreKind
deriving DecidableEq

/-- Embeds Upgrade (backend.go lines 267-308): run the per-stack loop;
only when every legacy stack has been moved is the version-1 manifest
written and the active reference store swapped to the project-scoped
one. A moved stack no longer appears under the legacy listing. -/
def Upgrade (st : MigrationState) : MigrationState × Option String :=
  let r := upgradeLoop st.projectStacks st.legacy
  match r.2.2 with
  | some e => ({ st with legacy := r.1, projectStacks := r.2.1 }, some e)
  | none =>
    ({ legacy := r.1, projectStacks := r.2.1, version := 1,
       storeKind := .projectScoped }, none)

/-! ## Base64 and the service crypter (service package,
serviceCrypter) -/

/-- The index of a character in the standard base64 alphabet, as used
by Go encoding/base64 StdEncoding; none for a character outside the
alphabet. -/
def b64Index (c : Char) : Option Nat :=
  if 'A' ≤ c ∧ c ≤ 'Z' then some (c.toNat - 'A'.toNat)
  else if 'a' ≤ c ∧ c ≤ 'z' then some (c.toNat - 'a'.toNat + 26)
  else if '0' ≤ c ∧ c ≤ '9' then some (c.toNat - '0'.toNat + 52)
  else if c = '+' then some 62
  else if c = '/' then some 63
  else none

/-- The character at an index of the standard base64 alphabet. -/
def b64Char (i : Nat) : Char :=
  if i < 26 then Char.ofNat ('A'.toNat + i)
  else if i < 52 then Char.ofNat ('a'.toNat + i - 26)
  else if i < 62 then Char.ofNat ('0'.toNat + i - 52)
  else if i = 62 then '+'
  else '/'

/-- Go base64.StdEncoding decoding over four-character quantums with
mandatory padding: the final quantum may end in one or two padding
characters, padding must end the input, and any character outside the
alphabet is a decoding error. Bytes are Nats below 256. -/
def b64DecodeQuantums : List Char → Except String (List Nat)
  | [] => .ok []
  | c0 :: c1 :: c2 :: c3 :: rest =>
    match b64Index c0, b64Index c1 with
    | some i0, some i1 =>
      if c2 = '=' then
        if c3 = '=' ∧ rest = [] then
          .ok [i0 * 4 + i1 / 16]
        else
          .error "illegal base64 data"
      else
        match b64Index c2 with
        | some i2 =>
          if c3 = '=' then
            if rest = [] then
              .ok [i0 * 4 + i1 / 16, i1 % 16 * 16 + i2 / 4]
            else
              .error "illegal base64 data"
          else
            match b64Index c3 with
            | some i3 =>
              match b64DecodeQuantums rest with
              | .ok tail =>
                .ok ((i0 * 4 + i1 / 16) :: (i1 % 16 * 16 + i2 / 4) ::
                  (i2 % 4 * 64 + i3) :: tail)
              | .error e => .error e
            | none => .error "illegal base64 data"
        | none => .error "illegal base64 data"
    | _, _ => .error "illegal base64 data"
  | _ => .error "illegal base64 data"

/-- Go base64.StdEncoding.DecodeString: newline characters are ignored,
then the quantum decoder runs. -/
def b64DecodeString (s : String) : Except String (List Nat) :=
  b64DecodeQuantums (s.data.filter (fun c => c ≠ '\r' ∧ c ≠ '\n'))

/-- Go base64.StdEncoding encoding of a byte list (bytes as Nats below
256), with padding. -/
def b64Encode : List Nat → List Char
  | [] => []
  | [b0] => [b64Char (b0 / 4), b64Char (b0 % 4 * 16), '=', '=']
  | [b0, b1] =>
    [b64Char (b0 / 4), b64Char (b0 % 4 * 16 + b1 / 16),
     b64Char (b1 % 16 * 4), '=']
  | b0 :: b1 :: b2 :: rest =>
    b64Char (b0 / 4) :: b64Char (b0 % 4 * 16 + b1 / 16) ::
      b64Char (b1 % 16 * 4 + b2 / 64) :: b64Char (b2 % 64) :: b64Encode rest

/-- Go base64.StdEncoding.EncodeToString. -/
def b64EncodeString (bs : List Nat) : String :=
  String.mk (b64Encode bs)

/-- The remote-service client as seen by the crypter: its three
round-trip calls (client.EncryptValue, client.DecryptValue,
client.BulkDecryptValue), each fallible. Byte strings are lists of
Nats; the bulk call returns a name-to-plaintext mapping as an
association list. -/
structure ServiceClient where
  encryptCall : List Nat → Except String (List Nat)
  decryptCall : List Nat → Except String (List Nat)
  bulkDecryptCall : List (List Nat) → Except String (List (String × List Nat))

/-- Embeds serviceCrypter.EncryptValue (service package, lines 47-53):
the ciphertext produced by the service is returned base64-encoded. -/
def serviceEncryptValue (c : ServiceClient) (plaintext : List Nat) :
    Except String String :=
  match c.encryptCall plaintext with
  | .error e => .error e
  | .ok ciphertext => .ok (b64EncodeString ciphertext)

/-- Embeds serviceCrypter.DecryptValue (service package, lines 55-66):
the ciphertext is base64-decoded first, and a decode failure is
returned as the error before any service call. -/
def serviceDecryptValue (c : ServiceClient) (cipherstring : String) :
    Except String (List Nat) :=
  match b64DecodeString cipherstring with
  | .error e => .error e
  | .ok ciphertext => c.decryptCall ciphertext

/-- The decode loop of serviceCrypter.BulkDecrypt (service package,
lines 69-76): each ciphertext is base64-decoded, and the first failure
aborts the whole call. -/
def bulkDecode : List String → Except String (List (List Nat))
  | [] => .ok []
  | s :: rest =>
    match b64DecodeString s with
    | .error e => .error e
    | .ok c =>
      match bulkDecode rest with
      | .ok cs => .ok (c :: cs)
      | .error e => .error e

/-- Embeds serviceCrypter.BulkDecrypt (service package, lines 68-89):
decode every ciphertext, then make one bulk service call; no mapping
is produced unless every ciphertext decoded. -/
def serviceBulkDecrypt (c : ServiceClient) (cipherList : List String) :
    Except String (List (String × List Nat)) :=
  match bulkDecode cipherList with
  | .error e => .error e
  | .ok toDecrypt => c.bulkDecryptCall toDecrypt

/-- The keys of the non-directory entries of a listing: the lock
markers of a stack as CancelCurrentUpdate sees them. -/
def nonDirKeys (entries : List BucketEntry) : List String :=
  (entries.filter (fun e => !e.isDir)).map (fun e => e.key)

/-- A concrete service client used to exercise the crypter theorems:
encryption and decryption are the identity on bytes, and the bulk call
tags every plaintext with one name. -/
def testClient : ServiceClient where
  encryptCall := fun p => .ok p
  decryptCall := fun ct => .ok ct
  bulkDecryptCall := fun l => .ok (l.map (fun ct => ("n", ct)))

/-! ## Theorems -/

/-- Claim C7: stringifying a reference with project "infra" and name
"prod" yields "prod" when the current project is named "infra", and
"organization/infra/prod" when the current project is unset or carries
a different name; a reference with an empty project stringifies to
just its name. -/
theorem refString_rendering (n other : String) (cp : Option Project)
    (h : "infra" ≠ other) :
    refString ⟨"prod", "infra", some ⟨"infra"⟩⟩ = "prod"
  ∧ refString ⟨"prod", "infra", none⟩ = "organization/infra/prod"
  ∧ refString ⟨"prod", "infra", some ⟨other⟩⟩ = "organization/infra/prod"
  ∧ refString ⟨n, "", cp⟩ = n := by
  refine ⟨by simp [refString], by simp [refString], ?_, by simp [refString]⟩
  simp only [refString]
  rw [if_neg (by simp), if_neg (by simpa using h)]
  rfl

/-- Witness for refString_rendering at a concrete different project. -/
theorem refString_rendering_witness :
    refString ⟨"prod", "infra", some ⟨"dev"⟩⟩ = "organization/infra/prod" :=
  (refString_rendering "x" "dev" none (by decide)).2.2.1

/-- Claim C9: at backend construction, manifest version 0 (also implied
by an absent manifest) selects the legacy reference store, version 1
the project-scoped store, and any other version fails construction
with the unsupported-version error. -/
theorem New_store_selection (v : Int) (h0 : v ≠ 0) (h1 : v ≠ 1) :
    newBackendStore none = .ok .legacy
  ∧ newBackendStore (some 0) = .ok .legacy
  ∧ newBackendStore (some 1) = .ok .projectScoped
  ∧ newBackendStore (some v) = .error (unsupportedVersionMsg v) := by
  refine ⟨rfl, rfl, rfl, ?_⟩
  simp [newBackendStore, manifestVersion, selectReferenceStore, h0, h1]

/-- Witness for New_store_selection at version 2. -/
theorem New_store_selection_witness :
    newBackendStore (some 2) = .error (unsupportedVersionMsg 2) :=
  (New_store_selection 2 (by decide) (by decide)).2.2.2

/-- Claim C3: getStackSecretsManager resolves against the persisted
configuration in the fixed order of the spec — a recorded
non-passphrase, non-default, nonempty provider gives the cloud
manager; else a nonempty salt gives the prompting passphrase manager;
else the default manager — and the resolved manager is always wrapped
in the caching decorator. -/
theorem getStackSecretsManager_resolution (ps : ProjectStack) :
    getStackSecretsManager ps = getStackSecretsManagerSpec ps
  ∧ getStackSecretsManager ps = .caching (resolveStackSecretsManager ps) := by
  refine ⟨?_, rfl⟩
  simp only [getStackSecretsManager, getStackSecretsManagerSpec,
    resolveStackSecretsManager]
  congr 1
  split_ifs <;> first | rfl | tauto

/-- Claim C4: constructing the service secrets manager clears every
field of the previously active provider kind — SecretsProvider,
EncryptedKey and EncryptionSalt — in the persisted per-stack
descriptor, and the returned manager state carries the client URL and
stack identifier. -/
theorem NewServiceSecretsManager_clears_previous_kind
    (url : String) (id : StackIdentifier) (info : ProjectStack) :
    (NewServiceSecretsManager url id info).persisted.secretsProvider = ""
  ∧ (NewServiceSecretsManager url id info).persisted.encryptedKey = ""
  ∧ (NewServiceSecretsManager url id info).persisted.encryptionSalt = ""
  ∧ (NewServiceSecretsManager url id info).state
      = ⟨url, id.owner, id.project, id.stackName⟩ := by
  simp only [NewServiceSecretsManager, changeProjectStackSecretDetails]
  by_cases h1 : info.secretsProvider = "" <;>
    by_cases h2 : info.encryptedKey = "" <;>
    by_cases h3 : info.encryptionSalt = "" <;>
    simp [h1, h2, h3]

/-- Claim C10: the per-stack configuration file is rewritten exactly
when one of the three provider fields was nonempty and hence actually
cleared; when all three are already empty no write happens and the
persisted descriptor is unchanged. -/
theorem NewServiceSecretsManager_write_iff_cleared
    (url : String) (id : StackIdentifier) (info : ProjectStack) :
    ((NewServiceSecretsManager url id info).wrote = true ↔
      (info.secretsProvider ≠ "" ∨ info.encryptedKey ≠ "" ∨
        info.encryptionSalt ≠ ""))
  ∧ (info.secretsProvider = "" → info.encryptedKey = "" →
      info.encryptionSalt = "" →
      (NewServiceSecretsManager url id info).wrote = false ∧
      (NewServiceSecretsManager url id info).persisted = info) := by
  simp only [NewServiceSecretsManager, changeProjectStackSecretDetails]
  by_cases h1 : info.secretsProvider = "" <;>
    by_cases h2 : info.encryptedKey = "" <;>
    by_cases h3 : info.encryptionSalt = "" <;>
    simp [h1, h2, h3]

/-- Witness for NewServiceSecretsManager_write_iff_cleared: a fully
empty descriptor is not rewritten. -/
theorem NewServiceSecretsManager_write_iff_cleared_witness :
    (NewServiceSecretsManager "https://api" ⟨"o", "p", "s"⟩ ⟨"", "", ""⟩).wrote
        = false
  ∧ (NewServiceSecretsManager "https://api" ⟨"o", "p", "s"⟩ ⟨"", "", ""⟩).persisted
        = ⟨"", "", ""⟩ :=
  (NewServiceSecretsManager_write_iff_cleared "https://api" ⟨"o", "p", "s"⟩
    ⟨"", "", ""⟩).2 rfl rfl rfl

/-- Claim C5: RemoveStack without force on a stack whose snapshot
still contains a resource fails with the refusal message and leaves
the stack store untouched; with force, or when the snapshot lists no
resources, it proceeds to remove the stack, moving the checkpoint to
the backup area rather than hard-deleting it. -/
theorem RemoveStack_guard (st : StackStore) (force : Bool) :
    (snapshotHasResources (st.current.bind (fun c => c.latest)) = true →
      RemoveStack false st =
        (st, true, some "refusing to remove stack because it still contains resources"))
  ∧ RemoveStack true st = (removeStackFiles st, false, none)
  ∧ (snapshotHasResources (st.current.bind (fun c => c.latest)) = false →
      RemoveStack force st = (removeStackFiles st, false, none))
  ∧ (removeStackFiles st).current = none
  ∧ (removeStackFiles st).backups = st.backups ++ st.current.toList := by
  refine ⟨?_, ?_, ?_, rfl, rfl⟩
  · intro h
    simp [RemoveStack, h]
  · simp [RemoveStack]
  · intro h
    simp [RemoveStack, h]

/-- Witness for RemoveStack_guard: a stack with one resource is
refused without force, with the checkpoint untouched. -/
theorem RemoveStack_guard_witness :
    RemoveStack false ⟨some ⟨some ⟨[⟨⟨"p1"⟩⟩]⟩⟩, []⟩ =
      (⟨some ⟨some ⟨[⟨⟨"p1"⟩⟩]⟩⟩, []⟩, true,
        some "refusing to remove stack because it still contains resources") :=
  (RemoveStack_guard ⟨some ⟨some ⟨[⟨⟨"p1"⟩⟩]⟩⟩, []⟩ false).1 rfl

/-- Claim C1, counterexample: on a non-dry-run whose mutating
operation failed, apply still attempts the history append and the
checkpoint backup, contradicting the claim that they are attempted
only after the mutating operation reports success (the update error is
nonetheless the one returned, swallowing the history failure). -/
theorem applyFinish_attempts_after_failure :
    (applyFinish false (some "update failed") (some "history failed")
        (some "backup failed")).historyAttempted = true
  ∧ (applyFinish false (some "update failed") (some "history failed")
        (some "backup failed")).backupAttempted = true
  ∧ (applyFinish false (some "update failed") (some "history failed")
        (some "backup failed")).returnedError
      = some (.updateError "update failed") :=
  ⟨rfl, rfl, rfl⟩

/-- Claim C1, amended: the history append and the checkpoint backup
are attempted exactly when the operation is not a dry-run, regardless
of whether the mutating operation succeeded; if the mutating operation
failed its error is the one returned and any history or backup failure
is swallowed; if it succeeded but the history append failed, the
wrapped history error is returned and the backup error is swallowed;
if only the backup failed, the wrapped backup error is returned. -/
theorem applyFinish_spec (dryRun : Bool)
    (updateRes historyResult backupResult : Option String) (e he hb : String) :
    (applyFinish dryRun updateRes historyResult backupResult).historyAttempted
        = !dryRun
  ∧ (applyFinish dryRun updateRes historyResult backupResult).backupAttempted
        = !dryRun
  ∧ (updateRes = some e →
      (applyFinish dryRun updateRes historyResult backupResult).returnedError
        = some (.updateError e))
  ∧ (updateRes = none → historyResult = some he →
      (applyFinish false updateRes historyResult backupResult).returnedError
        = some (.savingUpdateInfo he))
  ∧ (updateRes = none → historyResult = none → backupResult = some hb →
      (applyFinish false updateRes historyResult backupResult).returnedError
        = some (.savingBackup hb))
  ∧ (updateRes = none →
      (applyFinish true updateRes historyResult backupResult).returnedError
        = none) := by
  cases dryRun <;> cases updateRes <;> cases historyResult <;>
    cases backupResult <;> simp_all [applyFinish]

/-- Witness for applyFinish_spec: mutation succeeded, history append
failed; the wrapped history error is returned and the backup error
swallowed. -/
theorem applyFinish_spec_witness :
    (applyFinish false none (some "history failed") (some "backup failed")).returnedError
      = some (.savingUpdateInfo "history failed") :=
  (applyFinish_spec false none (some "history failed") (some "backup failed")
    "e" "history failed" "hb").2.2.2.1 rfl rfl

/-- Helper for claim C6: when the listing matches the markers actually
present and no key is listed twice, the delete loop removes every
marker and reports no error. -/
theorem cancelLoop_clears (entries : List BucketEntry)
    (hnd : (nonDirKeys entries).Nodup) :
    cancelLoop (nonDirKeys entries) entries = ([], none) := by
  induction entries with
  | nil => rfl
  | cons e rest ih =>
    by_cases hd : e.isDir
    · have hkeys : nonDirKeys (e :: rest) = nonDirKeys rest := by
        simp [nonDirKeys, List.filter_cons, hd]
      rw [hkeys] at hnd ⊢
      simpa [cancelLoop, hd] using ih hnd
    · have hkeys : nonDirKeys (e :: rest) = e.key :: nonDirKeys rest := by
        simp [nonDirKeys, List.filter_cons, hd]
      rw [hkeys] at hnd ⊢
      have hmem : e.key ∈ e.key :: nonDirKeys rest := by simp
      rw [show cancelLoop (e.key :: nonDirKeys rest) (e :: rest)
            = cancelLoop ((e.key :: nonDirKeys rest).erase e.key) rest from by
          simp only [cancelLoop]
          rw [if_neg hd, if_pos hmem]]
      rw [List.erase_cons_head]
      exact ih (List.Nodup.of_cons hnd)

/-- Claim C6: CancelCurrentUpdate deletes every marker in the lock
directory regardless of owner when the listing reflects the bucket;
an absent lock directory is benign; a marker deleted concurrently
between listing and delete is benign; and two consecutive calls on a
stack with no active lock both return no error. -/
theorem CancelCurrentUpdate_spec (entries : List BucketEntry)
    (present : List String) (hnd : (nonDirKeys entries).Nodup) :
    CancelCurrentUpdate (.ok entries) (nonDirKeys entries) = ([], none)
  ∧ CancelCurrentUpdate .notFound present = (present, none)
  ∧ (∀ e rest, e.isDir = false → e.key ∉ present →
      CancelCurrentUpdate (.ok (e :: rest)) present = (present, none))
  ∧ (CancelCurrentUpdate (.ok []) present).2 = none
  ∧ (CancelCurrentUpdate (.ok [])
      (CancelCurrentUpdate (.ok []) present).1).2 = none := by
  refine ⟨cancelLoop_clears entries hnd, rfl, ?_, rfl, rfl⟩
  intro e rest he hk
  simp [CancelCurrentUpdate, cancelLoop, he, hk]

/-- Witness for CancelCurrentUpdate_spec: two markers from different
owners are both deleted without error. -/
theorem CancelCurrentUpdate_spec_witness :
    CancelCurrentUpdate
      (.ok [⟨"stack/.pulumi/locks/a.json", false⟩,
            ⟨"stack/.pulumi/locks/b.json", false⟩])
      ["stack/.pulumi/locks/a.json", "stack/.pulumi/locks/b.json"]
      = ([], none) :=
  (CancelCurrentUpdate_spec
    [⟨"stack/.pulumi/locks/a.json", false⟩, ⟨"stack/.pulumi/locks/b.json", false⟩]
    [] (by decide)).1

/-- Helper for claim C2: the migration loop processes a prefix of the
legacy listing, moving each processed stack into the project-scoped
area, and stops leaving the unprocessed suffix listed as legacy. -/
theorem upgradeLoop_partition (legacy : List LegacyStack)
    (proj : List ProjStack) :
    ∃ pre, legacy = pre ++ (upgradeLoop proj legacy).1
      ∧ (upgradeLoop proj legacy).2.1 = proj ++ pre.map migratedStack := by
  induction legacy generalizing proj with
  | nil => exact ⟨[], by simp [upgradeLoop], by simp [upgradeLoop]⟩
  | cons s rest ih =>
    by_cases hp : inferProject s.checkpoint = ""
    · exact ⟨[], by simp [upgradeLoop, hp], by simp [upgradeLoop, hp]⟩
    · by_cases ht : stackPathTaken proj (inferProject s.checkpoint) s.name = true
      · exact ⟨[], by simp [upgradeLoop, hp, ht], by simp [upgradeLoop, hp, ht]⟩
      · obtain ⟨pre, h1, h2⟩ := ih (proj ++ [migratedStack s])
        have hloop : upgradeLoop proj (s :: rest)
            = upgradeLoop (proj ++ [migratedStack s]) rest := by
          simp [upgradeLoop, hp, ht, migratedStack]
        refine ⟨s :: pre, ?_, ?_⟩
        · rw [hloop]
          simpa using h1
        · rw [hloop, h2]
          simp


/-- Helper for claim C2: a run of the migration loop that reports no
error has processed every legacy stack. -/
theorem upgradeLoop_success (legacy : List LegacyStack) (proj : List ProjStack)
    (h : (upgradeLoop proj legacy).2.2 = none) :
    (upgradeLoop proj legacy).1 = [] := by
  induction legacy generalizing proj with
  | nil => simp [upgradeLoop]
  | cons s rest ih =>
    by_cases hp : inferProject s.checkpoint = ""
    · simp [upgradeLoop, hp] at h
    · by_cases ht : stackPathTaken proj (inferProject s.checkpoint) s.name = true
      · simp [upgradeLoop, hp, ht] at h
      · have hloop : upgradeLoop proj (s :: rest)
            = upgradeLoop (proj ++ [⟨inferProject s.checkpoint, s.name,
                s.checkpoint⟩]) rest := by
          simp [upgradeLoop, hp, ht]
        rw [hloop] at h ⊢
        exact ih _ h

/-- Helper for claim C2: a legacy stack whose project cannot be
inferred makes the migration loop report an error. -/
theorem upgradeLoop_empty_err (legacy : List LegacyStack) (proj : List ProjStack)
    (h : ∃ s ∈ legacy, inferProject s.checkpoint = "") :
    (upgradeLoop proj legacy).2.2.isSome = true := by
  induction legacy generalizing proj with
  | nil => simp at h
  | cons s rest ih =>
    by_cases hp : inferProject s.checkpoint = ""
    · simp [upgradeLoop, hp]
    · by_cases ht : stackPathTaken proj (inferProject s.checkpoint) s.name = true
      · simp [upgradeLoop, hp, ht]
      · have hloop : upgradeLoop proj (s :: rest)
            = upgradeLoop (proj ++ [⟨inferProject s.checkpoint, s.name,
                s.checkpoint⟩]) rest := by
          simp [upgradeLoop, hp, ht]
        rw [hloop]
        rcases h with ⟨t, hm, hemp⟩
        rcases List.mem_cons.mp hm with rfl | hmr
        · exact absurd hemp hp
        · exact ih _ ⟨t, hmr, hemp⟩

/-- Helper for claim C2: a checkpoint listing no resources yields no
inferred project. -/
theorem inferProject_of_no_resources (chk : CheckpointV3)
    (h : checkpointResources chk = []) : inferProject chk = "" := by
  cases hl : chk.latest with
  | none => simp [inferProject, hl]
  | some snap =>
    simp only [checkpointResources, hl] at h
    simp [inferProject, hl, h]

/-- Claim C2: Upgrade enumerates every stack under the legacy layout,
infers the owning project of each from a resource URN in its
checkpoint, and errors for a legacy stack with no resources; the
version-1 manifest is written and the active reference store swapped
only after every legacy stack has been moved; a mid-migration failure
leaves the already-migrated prefix in the new layout with the manifest
untouched; and a moved stack no longer appears under the legacy
listing, so a re-run does not re-move it. -/
theorem Upgrade_spec (st : MigrationState) :
    ((∃ s ∈ st.legacy, checkpointResources s.checkpoint = []) →
      (Upgrade st).2.isSome = true)
  ∧ ((Upgrade st).2 = none →
      (Upgrade st).1.legacy = []
      ∧ (Upgrade st).1.version = 1
      ∧ (Upgrade st).1.storeKind = .projectScoped
      ∧ (Upgrade st).1.projectStacks
          = st.projectStacks ++ st.legacy.map migratedStack)
  ∧ ((Upgrade st).2.isSome = true →
      (Upgrade st).1.version = st.version
      ∧ (Upgrade st).1.storeKind = st.storeKind)
  ∧ (∃ moved, st.legacy = moved ++ (Upgrade st).1.legacy
      ∧ (Upgrade st).1.projectStacks
          = st.projectStacks ++ moved.map migratedStack
      ∧ (st.legacy.Nodup → ∀ s ∈ moved, s ∉ (Upgrade st).1.legacy)) := by
  obtain ⟨pre, hpre, hproj⟩ :=
    upgradeLoop_partition st.legacy st.projectStacks
  cases hr : (upgradeLoop st.projectStacks st.legacy).2.2 with
  | some e =>
    have hU : Upgrade st =
        (MigrationState.mk (upgradeLoop st.projectStacks st.legacy).1
          (upgradeLoop st.projectStacks st.legacy).2.1 st.version st.storeKind,
         some e) := by
      simp [Upgrade, hr]
    refine ⟨?_, ?_, ?_, ?_⟩
    · intro _
      simp [hU]
    · intro hc
      rw [hU] at hc
      simp at hc
    · intro _
      simp [hU]
    · refine ⟨pre, ?_, ?_, ?_⟩
      · rw [hU]
        exact hpre
      · rw [hU]
        exact hproj
      · intro hnd s hs
        rw [hU]
        have : (pre ++ (upgradeLoop st.projectStacks st.legacy).1).Nodup := by
          rw [← hpre]; exact hnd
        exact fun hmem =>
          (List.disjoint_of_nodup_append this) hs hmem
  | none =>
    have hrem : (upgradeLoop st.projectStacks st.legacy).1 = [] :=
      upgradeLoop_success st.legacy st.projectStacks hr
    have hU : Upgrade st =
        (MigrationState.mk (upgradeLoop st.projectStacks st.legacy).1
          (upgradeLoop st.projectStacks st.legacy).2.1 1 .projectScoped,
         none) := by
      simp [Upgrade, hr]
    have hpre' : pre = st.legacy := by
      rw [hrem] at hpre
      simp at hpre
      exact hpre.symm
    refine ⟨?_, ?_, ?_, ?_⟩
    · intro hempty
      obtain ⟨s, hs, hres⟩ := hempty
      have := upgradeLoop_empty_err st.legacy st.projectStacks
        ⟨s, hs, inferProject_of_no_resources s.checkpoint hres⟩
      rw [hr] at this
      simp at this
    · intro _
      rw [hU]
      refine ⟨hrem, rfl, rfl, ?_⟩
      simp only
      rw [hproj, hpre']
    · intro hc
      rw [hU] at hc
      simp at hc
    · refine ⟨pre, ?_, ?_, ?_⟩
      · rw [hU]
        exact hpre
      · rw [hU]
        exact hproj
      · intro _ s _
        rw [hU]
        simp only [hrem]
        exact List.not_mem_nil s

/-- Witness for Upgrade_spec: a bucket with a deployed legacy stack a
(project p1) and an empty legacy stack b makes migration fail. -/
theorem Upgrade_spec_witness :
    (Upgrade ⟨[⟨"a", ⟨some ⟨[⟨⟨"p1"⟩⟩]⟩⟩⟩, ⟨"b", ⟨none⟩⟩],
      [], 0, .legacy⟩).2.isSome = true :=
  (Upgrade_spec ⟨[⟨"a", ⟨some ⟨[⟨⟨"p1"⟩⟩]⟩⟩⟩, ⟨"b", ⟨none⟩⟩],
    [], 0, .legacy⟩).1 ⟨⟨"b", ⟨none⟩⟩, by simp, rfl⟩


/-- Helper for claim C8: the bulk decode loop fails with the decode
error of the first malformed ciphertext. -/
theorem bulkDecode_first_error (good : List String) (bad : String)
    (rest : List String) (e : String)
    (hgood : ∀ g ∈ good, ∃ bs, b64DecodeString g = .ok bs)
    (hbad : b64DecodeString bad = .error e) :
    bulkDecode (good ++ bad :: rest) = .error e := by
  induction good with
  | nil => simp [bulkDecode, hbad]
  | cons g gs ih =>
    obtain ⟨bs, hg⟩ := hgood g (by simp)
    have htail := ih (fun x hx => hgood x (by simp [hx]))
    simp [bulkDecode, hg, htail]

/-- Claim C8: DecryptValue base64-decodes its input first and returns
the decode error for malformed input no matter what the service would
answer; BulkDecrypt fails with the decode error of the first malformed
entry, producing no partial mapping; a well-formed ciphertext is
passed decoded to the service; and EncryptValue returns the base64
encoding of the ciphertext produced by the service. -/
theorem serviceCrypter_base64_guard (c : ServiceClient) (s bad : String)
    (good rest : List String) (e : String) (p ct bs : List Nat) :
    (b64DecodeString s = .error e → serviceDecryptValue c s = .error e)
  ∧ (b64DecodeString s = .ok bs → serviceDecryptValue c s = c.decryptCall bs)
  ∧ ((∀ g ∈ good, ∃ ds, b64DecodeString g = .ok ds) →
      b64DecodeString bad = .error e →
      serviceBulkDecrypt c (good ++ bad :: rest) = .error e)
  ∧ (c.encryptCall p = .ok ct →
      serviceEncryptValue c p = .ok (b64EncodeString ct)) := by
  refine ⟨?_, ?_, ?_, ?_⟩
  · intro h
    simp [serviceDecryptValue, h]
  · intro h
    simp [serviceDecryptValue, h]
  · intro hgood hbad
    simp [serviceBulkDecrypt, bulkDecode_first_error good bad rest e hgood hbad]
  · intro h
    simp [serviceEncryptValue, h]

/-- Witness for serviceCrypter_base64_guard: a bulk decrypt whose
second entry is not base64 fails with the decode error even though the
first and third entries are well formed. -/
theorem serviceCrypter_base64_guard_witness :
    serviceBulkDecrypt testClient ["TWFu", "!bad", "TQ=="]
      = .error "illegal base64 data" :=
  (serviceCrypter_base64_guard testClient "x" "!bad" ["TWFu"] ["TQ=="]
      "illegal base64 data" [] [] []).2.2.1
    (by
      intro g hg
      have hgv : g = "TWFu" := by simpa using hg
      subst hgv
      exact ⟨[77, 97, 110], rfl⟩)
    rfl

end PulumiState

